import Mathlib

/-!
Verification of the zugzug bucket registry (`src/store.rs`, `src/args.rs`).

The registry (`StoreData` in `store.rs`) holds an optional default-bucket
name and an ordered list of buckets.  All store operations are pure
functions over this state except for the `persist()` disk write, which is
not modelled (it never changes the in-memory state).  `Bucket::make_dir`
is modelled with the current local date passed explicitly and the
filesystem as the set of existing paths.
-/

namespace Zugzug

/-- `struct Bucket { name, path }` from `store.rs`. -/
structure Bucket where
  name : String
  path : String
deriving DecidableEq

/-- `struct StoreData { default_bucket, buckets }` from `store.rs`:
the persisted registry document. -/
structure StoreData where
  default_bucket : Option String
  buckets : List Bucket
deriving DecidableEq

/-- `Store::new`: the empty registry (`buckets = []`, `default_bucket = None`). -/
def emptyStore : StoreData := ⟨none, []⟩

/-- `Store::find_bucket`: first bucket in sequence order whose name equals
the argument (`filter(...).next()`). -/
def find_bucket (sd : StoreData) (name : String) : Option Bucket :=
  sd.buckets.find? (fun b => b.name == name)

/-- `Store::default_bucket`: resolve the stored name (if any) against the
bucket list (`and_then(|name| buckets.iter().find(|b| b.name == *name))`). -/
def default_bucket (sd : StoreData) : Option Bucket :=
  sd.default_bucket.bind (fun n => sd.buckets.find? (fun b => b.name == n))

/-- `Store::set_default_bucket`: error when `find_bucket` misses, else set
the stored name.  The error message is the one in `store.rs`. -/
def set_default_bucket (sd : StoreData) (name : String) : Except String StoreData :=
  match find_bucket sd name with
  | some _ => .ok { sd with default_bucket := some name }
  | none => .error "Bucket doesn't exist"

/-- `Store::unset_default_bucket`: clear the stored name unconditionally. -/
def unset_default_bucket (sd : StoreData) : StoreData :=
  { sd with default_bucket := none }

/-- `Store::forget_bucket`: if the resolved default bucket has the given
name, unset the default first; then keep only buckets whose name differs. -/
def forget_bucket (sd : StoreData) (name : String) : StoreData :=
  let sd1 :=
    match default_bucket sd with
    | some bucket => if bucket.name = name then unset_default_bucket sd else sd
    | none => sd
  { sd1 with buckets := sd1.buckets.filter (fun b => b.name != name) }

/-- `Store::add_bucket`: push the new bucket, then, when the resolved
default is absent, call `set_default_bucket` on the new name (whose error,
propagated by `?` in the source, is kept in the `Except`). -/
def add_bucket (sd : StoreData) (name dir : String) : Except String StoreData :=
  let sd1 : StoreData := { sd with buckets := sd.buckets ++ [⟨name, dir⟩] }
  match default_bucket sd1 with
  | none => set_default_bucket sd1 name
  | some _ => .ok sd1

/-- One CLI-level mutating operation on the registry. -/
inductive Op where
  | addBucket (name dir : String)
  | setDefault (name : String)
  | unsetDefault
  | forgetBucket (name : String)

/-- Apply one operation; a failing operation leaves the state unchanged,
as the corresponding `Err` return in `store.rs` mutates nothing. -/
def step (sd : StoreData) : Op → StoreData
  | .addBucket name dir =>
    match add_bucket sd name dir with
    | .ok sd' => sd'
    | .error _ => sd
  | .setDefault name =>
    match set_default_bucket sd name with
    | .ok sd' => sd'
    | .error _ => sd
  | .unsetDefault => unset_default_bucket sd
  | .forgetBucket name => forget_bucket sd name

/-- Run a sequence of operations from a starting state. -/
def run (sd : StoreData) (ops : List Op) : StoreData :=
  ops.foldl step sd

/-- Zero-pad a number on the left to the given width, as Rust
format specifiers like 04 and 02 do for non-negative values. -/
def padNum (w : Nat) (n : Nat) : String :=
  let s := toString n
  String.mk (List.replicate (w - s.length) '0') ++ s

/-- The directory name built by `Bucket::make_dir`:
the 04-year, 02-month, 02-day of the local date, an underscore, and the
caller-supplied name. -/
def full_name (y m d : Nat) (name : String) : String :=
  padNum 4 y ++ padNum 2 m ++ padNum 2 d ++ "_" ++ name

/-- `Path::join` of a base path and a (relative) child name. -/
def joinPath (base child : String) : String :=
  base ++ "/" ++ child

/-- The full path `Bucket::make_dir` works with: the dated name joined
onto the bucket base path. -/
def make_dir_path (b : Bucket) (y m d : Nat) (name : String) : String :=
  joinPath b.path (full_name y m d name)

/-- `Bucket::make_dir` with the filesystem modelled as the list of
existing paths: error without creating anything when the target exists,
otherwise create it and return it. -/
def make_dir (fs : List String) (b : Bucket) (y m d : Nat) (name : String) :
    Except String String × List String :=
  let path := make_dir_path b y m d name
  if path ∈ fs then (.error "Path already exists", fs)
  else (.ok path, path :: fs)

/-- Rust `name.splitn(2, "_")` on the character list: split at the first
underscore into the part before it and everything after it; `none` when
there is no underscore (Rust then yields the single whole string). -/
def splitn2Chars : List Char → Option (List Char × List Char)
  | [] => none
  | c :: cs =>
    if c = '_' then some ([], cs)
    else (splitn2Chars cs).map (fun p => (c :: p.1, p.2))

/-- The `Vec<&str>` collected from `splitn(2, "_")` in `handle_ls`. -/
def splitn2 (s : String) : List String :=
  match splitn2Chars s.data with
  | none => [s]
  | some p => [String.mk p.1, String.mk p.2]

/-- The `(strings[0], strings[1])` access in `handle_ls`: `none` models the
out-of-bounds panic when the split produced fewer than two pieces. -/
def ls_entry_pair (s : String) : Option (String × String) :=
  let strings := splitn2 s
  match strings.get? 0, strings.get? 1 with
  | some date, some rest => some (date, rest)
  | _, _ => none

/-! ### Helper lemmas -/

/-- Both branches of `forget_bucket` leave the bucket list equal to the
filtered original list. -/
theorem forget_buckets_eq (sd : StoreData) (n : String) :
    (forget_bucket sd n).buckets = sd.buckets.filter (fun b => b.name != n) := by
  unfold forget_bucket
  cases h : default_bucket sd with
  | none => rfl
  | some b =>
    by_cases hb : b.name = n <;> simp [hb, unset_default_bucket]

/-- Filtering out buckets of a different name does not change which bucket
a name-lookup finds. -/
theorem find_filter_ne (l : List Bucket) (n Y : String) (h : n ≠ Y) :
    (l.filter (fun b => b.name != Y)).find? (fun b => b.name == n)
      = l.find? (fun b => b.name == n) := by
  induction l with
  | nil => rfl
  | cons b t ih =>
    by_cases hbY : b.name = Y
    · have hYn : (Y == n) = false := by
        simp
        exact fun hc => h hc.symm
      simp [List.filter_cons, List.find?_cons, hbY, hYn, ih]
    · simp only [List.filter_cons]
      have : (b.name != Y) = true := by simp [hbY]
      rw [this]
      simp only [if_true, List.find?_cons]
      cases hq : (b.name == n) with
      | true => rfl
      | false => exact ih

/-- When the resolved default is absent, `add_bucket` appends the bucket
and sets the stored default to the new name. -/
theorem add_bucket_of_no_default (sd : StoreData) (name diry : String)
    (h : default_bucket sd = none) :
    add_bucket sd name diry = .ok ⟨some name, sd.buckets ++ [⟨name, diry⟩]⟩ := by
  unfold add_bucket
  cases hsd : sd.default_bucket with
  | none =>
    have hres : default_bucket ⟨none, sd.buckets ++ [⟨name, diry⟩]⟩ = none := by
      simp [default_bucket]
    simp only [hres]
    unfold set_default_bucket find_bucket
    cases hf : (sd.buckets ++ [(⟨name, diry⟩ : Bucket)]).find? (fun b => b.name == name) with
    | none =>
      exfalso
      rw [List.find?_eq_none] at hf
      exact hf ⟨name, diry⟩ (by simp) (by simp)
    | some b => simp [hf]
  | some d =>
    have hfd : sd.buckets.find? (fun b => b.name == d) = none := by
      simpa [default_bucket, hsd] using h
    by_cases hnd : name = d
    · have hres : default_bucket ⟨some d, sd.buckets ++ [⟨name, diry⟩]⟩
          = some ⟨name, diry⟩ := by
        simp [default_bucket, List.find?_append, hfd, List.find?_cons, hnd]
      simp only [hres]
      rw [hnd]
    · have hres : default_bucket ⟨some d, sd.buckets ++ [⟨name, diry⟩]⟩ = none := by
        have hbd : (name == d) = false := by simp [hnd]
        simp [default_bucket, List.find?_append, hfd, List.find?_cons, hbd]
      simp only [hres]
      unfold set_default_bucket find_bucket
      cases hf : (sd.buckets ++ [(⟨name, diry⟩ : Bucket)]).find? (fun b => b.name == name) with
      | none =>
        exfalso
        rw [List.find?_eq_none] at hf
        exact hf ⟨name, diry⟩ (by simp) (by simp)
      | some b => simp [hf]

/-! ### Claims -/

/-- C6: `make_dir` builds the directory name as the zero-padded 4-digit
year, 2-digit month and 2-digit day with no separators, then an
underscore and the caller name; on 2024-03-05 with name `task` this is
exactly `20240305_task`, joined onto the bucket base path. -/
theorem make_dir_name_format (b : Bucket) (name : String) :
    full_name 2024 3 5 name = "20240305_" ++ name ∧
    make_dir_path b 2024 3 5 name = b.path ++ "/" ++ ("20240305_" ++ name) ∧
    full_name 2024 3 5 "task" = "20240305_task" :=
  ⟨rfl, rfl, rfl⟩

/-- C1 counterexample: registry with no default and one bucket named `a`;
adding a second bucket named `a` (different path) sets the default name,
but `default_bucket` then resolves to the first `a` bucket, not the one
just added. -/
theorem add_bucket_default_counterexample :
    add_bucket ⟨none, [⟨"a", "p1"⟩]⟩ "a" "p2"
      = .ok ⟨some "a", [⟨"a", "p1"⟩, ⟨"a", "p2"⟩]⟩ ∧
    default_bucket ⟨some "a", [⟨"a", "p1"⟩, ⟨"a", "p2"⟩]⟩ = some ⟨"a", "p1"⟩ ∧
    (⟨"a", "p1"⟩ : Bucket) ≠ ⟨"a", "p2"⟩ :=
  ⟨rfl, rfl, by decide⟩

/-- C1 (amended): when the resolved default bucket is absent,
`add_bucket` appends the new bucket and makes its name the stored
default; `default_bucket` afterwards returns the first bucket carrying
that name, which is the newly added bucket provided no pre-existing
bucket shares the name. -/
theorem add_bucket_no_default_spec (sd : StoreData) (name diry : String)
    (h : default_bucket sd = none) :
    add_bucket sd name diry = .ok ⟨some name, sd.buckets ++ [⟨name, diry⟩]⟩ ∧
    ((∀ b ∈ sd.buckets, b.name ≠ name) →
      default_bucket ⟨some name, sd.buckets ++ [⟨name, diry⟩]⟩ = some ⟨name, diry⟩) := by
  refine ⟨add_bucket_of_no_default sd name diry h, fun hnone => ?_⟩
  have hpre : sd.buckets.find? (fun b => b.name == name) = none := by
    rw [List.find?_eq_none]
    intro x hx
    simp [hnone x hx]
  simp [default_bucket, List.find?_append, hpre, List.find?_cons]

/-- C1 witness: the amended theorem applied at a concrete registry. -/
theorem add_bucket_no_default_spec_witness :
    default_bucket ⟨none, [⟨"b", "q"⟩]⟩ = none ∧
    (add_bucket ⟨none, [⟨"b", "q"⟩]⟩ "a" "p" = .ok ⟨some "a", [⟨"b", "q"⟩, ⟨"a", "p"⟩]⟩ ∧
      default_bucket ⟨some "a", [⟨"b", "q"⟩, ⟨"a", "p"⟩]⟩ = some ⟨"a", "p"⟩) := by
  refine ⟨rfl, ?_⟩
  have h := add_bucket_no_default_spec ⟨none, [⟨"b", "q"⟩]⟩ "a" "p" rfl
  exact ⟨h.1, h.2 (by decide)⟩

/-- A name-lookup over a list that starts with non-matching entries and
then holds a matching bucket returns that bucket. -/
theorem find_first {p : Bucket → Bool} (l₁ : List Bucket) (b : Bucket) (l₂ : List Bucket)
    (hb : p b = true) (h : ∀ x ∈ l₁, p x = false) :
    (l₁ ++ b :: l₂).find? p = some b := by
  rw [List.find?_append]
  have h1 : l₁.find? p = none := by
    rw [List.find?_eq_none]
    intro x hx
    simp [h x hx]
  rw [h1, List.find?_cons_of_pos _ hb]
  rfl

/-- C4: `forget_bucket` removes every bucket carrying the given name
(duplicates included), keeps the remaining buckets in their original
relative order with their multiplicities, and leaves the list unchanged
when nothing matched. -/
theorem forget_bucket_removes_all (sd : StoreData) (name : String) :
    (∀ b ∈ (forget_bucket sd name).buckets, b.name ≠ name) ∧
    (forget_bucket sd name).buckets.Sublist sd.buckets ∧
    (∀ b : Bucket, b.name ≠ name →
      (forget_bucket sd name).buckets.count b = sd.buckets.count b) ∧
    ((∀ b ∈ sd.buckets, b.name ≠ name) → (forget_bucket sd name).buckets = sd.buckets) := by
  rw [forget_buckets_eq]
  refine ⟨?_, List.filter_sublist _, ?_, ?_⟩
  · intro b hb
    rw [List.mem_filter] at hb
    simpa using hb.2
  · intro b hb
    exact List.count_filter (by simpa using hb)
  · intro hall
    rw [List.filter_eq_self]
    intro b hb
    simpa using hall b hb

/-- C4 witness: removing the duplicated name `a` from a three-bucket list,
and forgetting an unknown name from a singleton list. -/
theorem forget_bucket_removes_all_witness :
    (forget_bucket ⟨none, [⟨"a", "p"⟩, ⟨"b", "q"⟩, ⟨"a", "r"⟩]⟩ "a").buckets.Sublist
      [⟨"a", "p"⟩, ⟨"b", "q"⟩, ⟨"a", "r"⟩] ∧
    (forget_bucket ⟨none, [⟨"a", "p"⟩, ⟨"b", "q"⟩, ⟨"a", "r"⟩]⟩ "a").buckets.count ⟨"b", "q"⟩
      = ([⟨"a", "p"⟩, ⟨"b", "q"⟩, ⟨"a", "r"⟩] : List Bucket).count ⟨"b", "q"⟩ ∧
    (forget_bucket ⟨none, [⟨"b", "q"⟩]⟩ "z").buckets = [⟨"b", "q"⟩] :=
  ⟨(forget_bucket_removes_all ⟨none, [⟨"a", "p"⟩, ⟨"b", "q"⟩, ⟨"a", "r"⟩]⟩ "a").2.1,
   (forget_bucket_removes_all ⟨none, [⟨"a", "p"⟩, ⟨"b", "q"⟩, ⟨"a", "r"⟩]⟩ "a").2.2.1
     ⟨"b", "q"⟩ (by decide),
   (forget_bucket_removes_all ⟨none, [⟨"b", "q"⟩]⟩ "z").2.2.2 (by decide)⟩

/-- C5: `set_default_bucket` errors when no bucket carries the name and
then changes nothing, and on a present name sets the stored default to it
while leaving the bucket list alone. -/
theorem set_default_bucket_spec (sd : StoreData) (X : String) :
    ((∀ b ∈ sd.buckets, b.name ≠ X) →
      set_default_bucket sd X = .error "Bucket doesn't exist" ∧
      step sd (Op.setDefault X) = sd) ∧
    ((∃ b ∈ sd.buckets, b.name = X) →
      set_default_bucket sd X = .ok ⟨some X, sd.buckets⟩) := by
  constructor
  · intro hall
    have hf : find_bucket sd X = none := by
      rw [find_bucket, List.find?_eq_none]
      intro x hx
      simp [hall x hx]
    exact ⟨by simp [set_default_bucket, hf], by simp [step, set_default_bucket, hf]⟩
  · rintro ⟨b, hb, hbX⟩
    cases hf : find_bucket sd X with
    | none =>
      exfalso
      rw [find_bucket, List.find?_eq_none] at hf
      exact hf b hb (by simp [hbX])
    | some c => simp [set_default_bucket, hf]

/-- C5 witness: failing on an unknown name, succeeding on a present one. -/
theorem set_default_bucket_spec_witness :
    (set_default_bucket ⟨none, [⟨"a", "p"⟩]⟩ "z" = .error "Bucket doesn't exist" ∧
      step ⟨none, [⟨"a", "p"⟩]⟩ (Op.setDefault "z") = ⟨none, [⟨"a", "p"⟩]⟩) ∧
    set_default_bucket ⟨none, [⟨"a", "p"⟩]⟩ "a" = .ok ⟨some "a", [⟨"a", "p"⟩]⟩ :=
  ⟨(set_default_bucket_spec ⟨none, [⟨"a", "p"⟩]⟩ "z").1 (by decide),
   (set_default_bucket_spec ⟨none, [⟨"a", "p"⟩]⟩ "a").2 (by decide)⟩

/-- C9: `default_bucket` returns nothing when the stored name is unset and
when it dangles, and otherwise returns the first bucket in sequence order
carrying the stored name. -/
theorem default_bucket_resolution (sd : StoreData) :
    (sd.default_bucket = none → default_bucket sd = none) ∧
    (∀ n, sd.default_bucket = some n → (∀ b ∈ sd.buckets, b.name ≠ n) →
      default_bucket sd = none) ∧
    (∀ n l₁ b l₂, sd.default_bucket = some n → sd.buckets = l₁ ++ b :: l₂ →
      b.name = n → (∀ c ∈ l₁, c.name ≠ n) → default_bucket sd = some b) := by
  refine ⟨?_, ?_, ?_⟩
  · intro h
    simp [default_bucket, h]
  · intro n hn hall
    have hf : sd.buckets.find? (fun b => b.name == n) = none := by
      rw [List.find?_eq_none]
      intro x hx
      simp [hall x hx]
    simp [default_bucket, hn, hf]
  · intro n l₁ b l₂ hn hl hbn hall
    have hf : sd.buckets.find? (fun c => c.name == n) = some b := by
      rw [hl]
      exact find_first l₁ b l₂ (by simp [hbn]) (fun x hx => by simp [hall x hx])
    simp [default_bucket, hn, hf]

/-- C9 witness: unset, dangling, and duplicate-name resolution cases. -/
theorem default_bucket_resolution_witness :
    default_bucket ⟨none, [⟨"a", "p"⟩]⟩ = none ∧
    default_bucket ⟨some "z", [⟨"a", "p"⟩]⟩ = none ∧
    default_bucket ⟨some "b", [⟨"a", "p"⟩, ⟨"b", "q"⟩, ⟨"b", "r"⟩]⟩ = some ⟨"b", "q"⟩ :=
  ⟨(default_bucket_resolution ⟨none, [⟨"a", "p"⟩]⟩).1 rfl,
   (default_bucket_resolution ⟨some "z", [⟨"a", "p"⟩]⟩).2.1 "z" rfl (by decide),
   (default_bucket_resolution ⟨some "b", [⟨"a", "p"⟩, ⟨"b", "q"⟩, ⟨"b", "r"⟩]⟩).2.2 "b"
     [⟨"a", "p"⟩] ⟨"b", "q"⟩ [⟨"b", "r"⟩] rfl rfl rfl (by decide)⟩

/-- C10: on a registry whose stored default dangles, `add_bucket`
overwrites it: afterwards the stored default is the added name. -/
theorem add_bucket_dangling_default (sd : StoreData) (d name diry : String)
    (h1 : sd.default_bucket = some d) (h2 : ∀ b ∈ sd.buckets, b.name ≠ d) :
    add_bucket sd name diry = .ok ⟨some name, sd.buckets ++ [⟨name, diry⟩]⟩ := by
  apply add_bucket_of_no_default
  have hf : sd.buckets.find? (fun b => b.name == d) = none := by
    rw [List.find?_eq_none]
    intro x hx
    simp [h2 x hx]
  simp [default_bucket, h1, hf]

/-- C10 witness: a dangling default `x` is overwritten by adding `b`. -/
theorem add_bucket_dangling_default_witness :
    (⟨some "x", [⟨"a", "p"⟩]⟩ : StoreData).default_bucket = some "x" ∧
    add_bucket ⟨some "x", [⟨"a", "p"⟩]⟩ "b" "q"
      = .ok ⟨some "b", [⟨"a", "p"⟩, ⟨"b", "q"⟩]⟩ :=
  ⟨rfl, add_bucket_dangling_default ⟨some "x", [⟨"a", "p"⟩]⟩ "x" "b" "q" rfl (by decide)⟩

/-- C3: forgetting the bucket that is the current default leaves the
default unset (stored and resolved); forgetting any name that is not the
resolved default's name leaves the stored default and its resolution
unchanged. -/
theorem forget_bucket_default_frame (sd : StoreData) (X Y : String) :
    (∀ b, default_bucket sd = some b → b.name = X →
      (forget_bucket sd X).default_bucket = none ∧
      default_bucket (forget_bucket sd X) = none) ∧
    ((∀ b, default_bucket sd = some b → b.name ≠ Y) →
      (forget_bucket sd Y).default_bucket = sd.default_bucket ∧
      default_bucket (forget_bucket sd Y) = default_bucket sd) := by
  constructor
  · intro b hdb hbX
    have hforget : forget_bucket sd X
        = ⟨none, sd.buckets.filter (fun c => c.name != X)⟩ := by
      unfold forget_bucket
      rw [hdb]
      simp [hbX, unset_default_bucket]
    rw [hforget]
    exact ⟨rfl, by simp [default_bucket]⟩
  · intro hY
    cases hdb : default_bucket sd with
    | none =>
      have hforget : forget_bucket sd Y
          = ⟨sd.default_bucket, sd.buckets.filter (fun c => c.name != Y)⟩ := by
        unfold forget_bucket
        rw [hdb]
      refine ⟨by rw [hforget], ?_⟩
      rw [hforget]
      cases hsd : sd.default_bucket with
      | none => simp [default_bucket, hsd]
      | some m =>
        have hfm : sd.buckets.find? (fun b => b.name == m) = none := by
          simpa [default_bucket, hsd] using hdb
        have hfm2 : (sd.buckets.filter (fun b => b.name != Y)).find?
            (fun b => b.name == m) = none := by
          rw [List.find?_eq_none]
          intro x hx
          rw [List.find?_eq_none] at hfm
          exact hfm x (List.mem_filter.mp hx).1
        simp only [default_bucket, hsd, Option.some_bind]
        exact hfm2
    | some b =>
      have hbY : b.name ≠ Y := hY b hdb
      have hforget : forget_bucket sd Y
          = ⟨sd.default_bucket, sd.buckets.filter (fun c => c.name != Y)⟩ := by
        unfold forget_bucket
        rw [hdb]
        simp [hbY]
      refine ⟨by rw [hforget], ?_⟩
      obtain ⟨m, hsd, hfm⟩ := Option.bind_eq_some.mp hdb
      have hbm : b.name = m := by simpa using List.find?_some hfm
      have hmY : m ≠ Y := hbm ▸ hbY
      have hfilter := find_filter_ne sd.buckets m Y hmY
      rw [hforget]
      simp only [default_bucket, hsd, Option.some_bind]
      rw [hfilter]
      exact hfm

/-- C3 witness: forgetting the default `a` unsets it; forgetting the
non-default `b` leaves the default untouched. -/
theorem forget_bucket_default_frame_witness :
    ((forget_bucket ⟨some "a", [⟨"a", "p"⟩, ⟨"b", "q"⟩]⟩ "a").default_bucket = none ∧
      default_bucket (forget_bucket ⟨some "a", [⟨"a", "p"⟩, ⟨"b", "q"⟩]⟩ "a") = none) ∧
    ((forget_bucket ⟨some "a", [⟨"a", "p"⟩, ⟨"b", "q"⟩]⟩ "b").default_bucket = some "a" ∧
      default_bucket (forget_bucket ⟨some "a", [⟨"a", "p"⟩, ⟨"b", "q"⟩]⟩ "b")
        = default_bucket ⟨some "a", [⟨"a", "p"⟩, ⟨"b", "q"⟩]⟩) := by
  constructor
  · exact (forget_bucket_default_frame ⟨some "a", [⟨"a", "p"⟩, ⟨"b", "q"⟩]⟩ "a" "b").1
      ⟨"a", "p"⟩ rfl rfl
  · refine (forget_bucket_default_frame ⟨some "a", [⟨"a", "p"⟩, ⟨"b", "q"⟩]⟩ "a" "b").2 ?_
    intro b hb
    rw [show default_bucket ⟨some "a", [⟨"a", "p"⟩, ⟨"b", "q"⟩]⟩ = some ⟨"a", "p"⟩ from rfl]
      at hb
    cases hb
    decide

/-- C7: `make_dir` on an existing target path fails with the
path-exists error and creates nothing; on a fresh target it creates the
directory and returns the full path. -/
theorem make_dir_exists_spec (fs : List String) (b : Bucket) (y m d : Nat) (name : String) :
    (make_dir_path b y m d name ∈ fs →
      make_dir fs b y m d name = (.error "Path already exists", fs)) ∧
    (make_dir_path b y m d name ∉ fs →
      make_dir fs b y m d name
        = (.ok (make_dir_path b y m d name), make_dir_path b y m d name :: fs)) := by
  constructor
  · intro h
    simp [make_dir, h]
  · intro h
    simp [make_dir, h]

/-- C7 witness: the dated path under `base` collides when present and is
created when absent. -/
theorem make_dir_exists_spec_witness :
    (make_dir ["base/20240305_task"] ⟨"b", "base"⟩ 2024 3 5 "task"
      = (.error "Path already exists", ["base/20240305_task"])) ∧
    (make_dir [] ⟨"b", "base"⟩ 2024 3 5 "task"
      = (.ok "base/20240305_task", ["base/20240305_task"])) :=
  ⟨(make_dir_exists_spec ["base/20240305_task"] ⟨"b", "base"⟩ 2024 3 5 "task").1 (by decide),
   (make_dir_exists_spec [] ⟨"b", "base"⟩ 2024 3 5 "task").2 (by decide)⟩

/-- `splitn(2, "_")` on the underlying characters finds the first
underscore: before it, the longest underscore-free initial segment;
after it, the whole remainder. -/
theorem splitn2Chars_eq (l : List Char) :
    splitn2Chars l =
      if l.contains '_' = true then
        some (l.takeWhile (fun c => c != '_'), (l.dropWhile (fun c => c != '_')).tail)
      else none := by
  induction l with
  | nil => rfl
  | cons c cs ih =>
    by_cases hc : c = '_'
    · subst hc
      simp [splitn2Chars, List.contains_cons, List.takeWhile_cons, List.dropWhile_cons]
    · rw [show splitn2Chars (c :: cs)
          = (splitn2Chars cs).map (fun p => (c :: p.1, p.2)) from by
            simp [splitn2Chars, hc]]
      by_cases h2 : cs.contains '_' = true
      · rw [ih, if_pos h2]
        have : (c :: cs).contains '_' = true := by
          rw [List.contains_cons, h2, Bool.or_true]
        rw [if_pos this]
        simp [List.takeWhile_cons, List.dropWhile_cons, hc]
      · rw [ih, if_neg h2]
        rw [Bool.not_eq_true] at h2
        have h1 : ('_' == c) = false := by
          simp
          intro he
          exact hc he.symm
        have hcc : (c :: cs).contains '_' = false := by
          rw [List.contains_cons, h1, h2]
          rfl
        rw [if_neg (by rw [hcc]; exact Bool.false_ne_true)]
        rfl

/-- C8: the listing splits each entry name at the first underscore into
the text before it and everything after it, and an entry name without an
underscore makes the `strings[1]` access out of bounds, aborting the
listing (modelled as `none`). -/
theorem ls_entry_split (s : String) :
    ls_entry_pair s =
      (if s.data.contains '_' = true then
        some (String.mk (s.data.takeWhile (fun c => c != '_')),
              String.mk ((s.data.dropWhile (fun c => c != '_')).tail))
      else none) ∧
    (splitn2 s).length = (if s.data.contains '_' = true then 2 else 1) := by
  have hs := splitn2Chars_eq s.data
  by_cases h : s.data.contains '_' = true
  · rw [if_pos h] at hs
    rw [if_pos h, if_pos h]
    exact ⟨by simp [ls_entry_pair, splitn2, hs], by simp [splitn2, hs]⟩
  · rw [if_neg h] at hs
    rw [if_neg h, if_neg h]
    exact ⟨by simp [ls_entry_pair, splitn2, hs], by simp [splitn2, hs]⟩

/-- Setting the freshly appended name as default always succeeds and
stores that name. -/
theorem set_default_on_appended (bs : List Bucket) (db : Option String) (name diry : String) :
    set_default_bucket ⟨db, bs ++ [⟨name, diry⟩]⟩ name
      = .ok ⟨some name, bs ++ [⟨name, diry⟩]⟩ := by
  unfold set_default_bucket find_bucket
  cases hf : (bs ++ [(⟨name, diry⟩ : Bucket)]).find? (fun b => b.name == name) with
  | none =>
    exfalso
    rw [List.find?_eq_none] at hf
    exact hf ⟨name, diry⟩ (by simp) (by simp)
  | some b => simp [hf]

/-- `add_bucket` always succeeds, either setting the new name as default
or keeping the stored default, and always appends the new bucket. -/
theorem add_bucket_eq_cases (sd : StoreData) (name diry : String) :
    add_bucket sd name diry = .ok ⟨some name, sd.buckets ++ [⟨name, diry⟩]⟩ ∨
    add_bucket sd name diry = .ok ⟨sd.default_bucket, sd.buckets ++ [⟨name, diry⟩]⟩ := by
  unfold add_bucket
  cases hdb : default_bucket ⟨sd.default_bucket, sd.buckets ++ [⟨name, diry⟩]⟩ with
  | none =>
    left
    simp only [hdb]
    exact set_default_on_appended sd.buckets sd.default_bucket name diry
  | some b =>
    right
    simp only [hdb]

/-- The default-name invariant: a stored default name is carried by some
bucket in the list. -/
def invariant (sd : StoreData) : Prop :=
  ∀ n, sd.default_bucket = some n → ∃ b, b ∈ sd.buckets ∧ b.name = n

/-- Every operation preserves the default-name invariant. -/
theorem invariant_step (sd : StoreData) (op : Op) (h : invariant sd) :
    invariant (step sd op) := by
  cases op with
  | addBucket name diry =>
    rcases add_bucket_eq_cases sd name diry with hab | hab
    · simp only [step, hab]
      intro n hn
      cases hn
      exact ⟨⟨name, diry⟩, by simp, rfl⟩
    · simp only [step, hab]
      intro n hn
      obtain ⟨b, hb, hbn⟩ := h n hn
      exact ⟨b, List.mem_append_left _ hb, hbn⟩
  | setDefault name =>
    cases hf : find_bucket sd name with
    | none =>
      simp only [step, set_default_bucket, hf]
      exact h
    | some b =>
      simp only [step, set_default_bucket, hf]
      intro n hn
      cases hn
      exact ⟨b, List.mem_of_find?_eq_some hf, by simpa using List.find?_some hf⟩
  | unsetDefault =>
    intro n hn
    exact absurd hn (by simp [step, unset_default_bucket])
  | forgetBucket name =>
    simp only [step]
    cases hdb : default_bucket sd with
    | none =>
      have hforget : forget_bucket sd name
          = ⟨sd.default_bucket, sd.buckets.filter (fun c => c.name != name)⟩ := by
        unfold forget_bucket
        rw [hdb]
      rw [hforget]
      intro n hn
      obtain ⟨b, hb, hbn⟩ := h n hn
      exfalso
      rw [default_bucket, hn] at hdb
      simp only [Option.some_bind] at hdb
      rw [List.find?_eq_none] at hdb
      exact hdb b hb (by simp [hbn])
    | some bu =>
      by_cases hbn : bu.name = name
      · have hforget : forget_bucket sd name
            = ⟨none, sd.buckets.filter (fun c => c.name != name)⟩ := by
          unfold forget_bucket
          rw [hdb]
          simp [hbn, unset_default_bucket]
        rw [hforget]
        intro n hn
        exact absurd hn (by simp)
      · have hforget : forget_bucket sd name
            = ⟨sd.default_bucket, sd.buckets.filter (fun c => c.name != name)⟩ := by
          unfold forget_bucket
          rw [hdb]
          simp [hbn]
        rw [hforget]
        intro n hn
        obtain ⟨b, hb, hbname⟩ := h n hn
        rw [default_bucket, hn] at hdb
        simp only [Option.some_bind] at hdb
        have hbun : bu.name = n := by simpa using List.find?_some hdb
        have hnname : n ≠ name := fun he => hbn (hbun.trans he)
        refine ⟨b, ?_, hbname⟩
        rw [List.mem_filter]
        exact ⟨hb, by simp [hbname, hnname]⟩

/-- The invariant holds along any run of operations. -/
theorem invariant_run (ops : List Op) (sd : StoreData) (h : invariant sd) :
    invariant (run sd ops) := by
  induction ops generalizing sd with
  | nil => exact h
  | cons op ops ih => exact ih (step sd op) (invariant_step sd op h)

/-- C2: starting from the empty registry, after any sequence of
operations a present stored default name is carried by some bucket in the
list. -/
theorem registry_default_invariant (ops : List Op) (n : String)
    (h : (run emptyStore ops).default_bucket = some n) :
    ∃ b, b ∈ (run emptyStore ops).buckets ∧ b.name = n :=
  invariant_run ops emptyStore (fun _ hn => nomatch hn) n h

/-- C2 witness: a concrete run whose stored default is `a`. -/
theorem registry_default_invariant_witness :
    (run emptyStore [Op.addBucket "a" "p", Op.addBucket "b" "q"]).default_bucket
      = some "a" ∧
    ∃ b, b ∈ (run emptyStore [Op.addBucket "a" "p", Op.addBucket "b" "q"]).buckets ∧
      b.name = "a" :=
  ⟨rfl, registry_default_invariant [Op.addBucket "a" "p", Op.addBucket "b" "q"] "a" rfl⟩

end Zugzug
